import Mathlib

/-!
Verification of the repository's DynamoDB helper library.

Shallow embedding of the Rust sources:
* `src/utils.rs` — `retry_with_backoff`, the Fibonacci-backoff retry helper;
* `src/dynamodb/client.rs` — request construction and pagination loops of
  `create_table_if_not_exists`, `update_item`, `scan_table`, `scan`,
  `query_flexible`, `query_simple`, `scan_paginated`;
* `src/dynamodb/schema.rs` / `table.rs` — `Schema`, `FieldType`, `Table`;
* `src/command_line.rs` — the key-condition builder of the interactive
  `query` command (`query_items`).

The remote DynamoDB service is modelled as an oracle (a function from the
request the code assembles to a response), so the theorems are about what the
code sends and how it folds responses together, never about the service's own
behaviour.  Durations are modelled as natural numbers (nanosecond counts add
exactly as `std::time::Duration` does, and no overflow is possible there in
practice); DynamoDB `HashMap`s are modelled extensionally as functions
`String → Option _`, with `insert` overwriting, except in `update_item` where
the exact insertion sequence matters and an association list is kept.
-/

/-! ## `src/utils.rs`: retry_with_backoff -/

deriving instance DecidableEq for Except

/-- Outcome of a `retry_with_backoff` run: the returned `Result`, the list of
sleeps performed (in order), and the number of times the operation closure was
invoked. -/
structure RetryOutcome (T E : Type) where
  result : Except E T
  waits : List Nat
  attempts : Nat
  deriving Repr

/-- The loop of `retry_with_backoff` (src/utils.rs lines 61-81).  The Rust
loop keeps a counter `retries` and retries while `retries < max_retries`; here
the structural argument `remaining` is `max_retries - retries`, so
`remaining = 0` exactly when `retries < max_retries` fails.  `attempt` is the
0-based index of the current invocation (the value of `retries` at that
point), `fib` is the pair of pending delays, updated on each failure by
`fib = (fib.1, fib.0 + fib.1)` after sleeping `fib.0`. -/
def retryGo {T E : Type} (operation : Nat → Except E T) (attempt : Nat)
    (fib : Nat × Nat) : Nat → RetryOutcome T E
  | 0 =>
    match operation attempt with
    | .ok result => ⟨.ok result, [], 1⟩
    | .error e => ⟨.error e, [], 1⟩
  | remaining + 1 =>
    match operation attempt with
    | .ok result => ⟨.ok result, [], 1⟩
    | .error _ =>
      let rest := retryGo operation (attempt + 1) (fib.2, fib.1 + fib.2) remaining
      ⟨rest.result, fib.1 :: rest.waits, rest.attempts + 1⟩

/-- `retry_with_backoff` (src/utils.rs).  The asynchronous operation is
modelled as a function from the attempt index to its result (`operation()` is
invoked fresh each attempt; attempt `i` is the `i`-th invocation).  Initial
state: `retries = 0`, `fib = (initial_delay, initial_delay)`. -/
def retry_with_backoff {T E : Type} (operation : Nat → Except E T)
    (initial_delay : Nat) (max_retries : Nat) : RetryOutcome T E :=
  retryGo operation 0 (initial_delay, initial_delay) max_retries

/-- The Fibonacci-scaled delay sequence `d, d, 2d, 3d, 5d, 8d, …` named by the
spec: first two terms are `d`, each later term is the sum of the previous
two. -/
def fibDelay (d : Nat) : Nat → Nat
  | 0 => d
  | 1 => d
  | n + 2 => fibDelay d n + fibDelay d (n + 1)

/-- The sequence of sleeps performed starting from the delay pair `fib`. -/
def waitSeq : Nat × Nat → Nat → List Nat
  | _, 0 => []
  | fib, k + 1 => fib.1 :: waitSeq (fib.2, fib.1 + fib.2) k

theorem waitSeq_fibDelay (d : Nat) (n : Nat) (k : Nat) :
    waitSeq (fibDelay d n, fibDelay d (n + 1)) k
      = (List.range k).map (fun i => fibDelay d (n + i)) := by
  induction k generalizing n with
  | zero => rfl
  | succ k ih =>
    have h2 : fibDelay d n + fibDelay d (n + 1) = fibDelay d (n + 1 + 1) := rfl
    rw [List.range_succ_eq_map, List.map_cons, List.map_map]
    show fibDelay d n :: waitSeq (fibDelay d (n + 1), fibDelay d n + fibDelay d (n + 1)) k = _
    rw [h2, ih (n + 1)]
    congr 1
    congr 1
    funext i
    show fibDelay d (n + 1 + i) = fibDelay d (n + Nat.succ i)
    congr 1
    omega

/-- If the operation fails at the `k` attempts `attempt, …, attempt + k - 1`
and succeeds at attempt `attempt + k`, with at least `k` retries remaining,
the loop returns the success, sleeping `waitSeq fib k` on the way. -/
theorem retryGo_spec {T E : Type} (operation : Nat → Except E T) (e : Nat → E)
    (v : T) (attempt k remaining : Nat) (fib : Nat × Nat)
    (hk : k ≤ remaining)
    (hfail : ∀ i, i < k → operation (attempt + i) = .error (e (attempt + i)))
    (hsucc : operation (attempt + k) = .ok v) :
    retryGo operation attempt fib remaining = ⟨.ok v, waitSeq fib k, k + 1⟩ := by
  induction k generalizing attempt remaining fib with
  | zero =>
    rw [Nat.add_zero] at hsucc
    cases remaining with
    | zero => simp [retryGo, hsucc, waitSeq]
    | succ remaining => simp [retryGo, hsucc, waitSeq]
  | succ k ih =>
    have h0 : operation attempt = .error (e attempt) := by
      have := hfail 0 (Nat.succ_pos k)
      rwa [Nat.add_zero] at this
    cases remaining with
    | zero => exact absurd hk (by omega)
    | succ remaining =>
      rw [retryGo, h0]
      have hrest := ih (attempt + 1) remaining (fib.2, fib.1 + fib.2)
        (Nat.le_of_succ_le_succ hk)
        (fun i hi => by
          have := hfail (i + 1) (Nat.succ_lt_succ hi)
          rwa [show attempt + (i + 1) = attempt + 1 + i by omega] at this)
        (by rwa [show attempt + 1 + k = attempt + (k + 1) by omega])
      rw [hrest]
      rfl

/-- If the operation fails at every attempt up to `attempt + remaining`, the
loop exhausts its budget and returns the error of the last attempt, having
invoked the operation `remaining + 1` times. -/
theorem retryGo_all_fail {T E : Type} (operation : Nat → Except E T)
    (e : Nat → E) (attempt remaining : Nat) (fib : Nat × Nat)
    (hfail : ∀ i, i ≤ attempt + remaining → operation i = .error (e i)) :
    (retryGo operation attempt fib remaining).result
        = .error (e (attempt + remaining))
      ∧ (retryGo operation attempt fib remaining).attempts = remaining + 1 := by
  induction remaining generalizing attempt fib with
  | zero =>
    have h0 : operation attempt = .error (e attempt) := hfail attempt (by omega)
    simp [retryGo, h0]
  | succ remaining ih =>
    have h0 : operation attempt = .error (e attempt) := hfail attempt (by omega)
    rw [retryGo, h0]
    have hrest := ih (attempt + 1) (fib.2, fib.1 + fib.2)
      (fun i hi => hfail i (by omega))
    refine ⟨?_, ?_⟩
    · simpa [show attempt + 1 + remaining = attempt + (remaining + 1) by omega]
        using hrest.1
    · simpa using hrest.2

/-- C1: for every max retry count `N ≥ 0`, initial delay `d`, and operation
that fails exactly `k ≤ N` times and then succeeds, `retry_with_backoff`
returns the success value and the sleeps it performs before that success are
exactly the first `k` terms of the Fibonacci-scaled delay sequence
`d, d, 2d, 3d, 5d, …` (so `k = 0` waits nothing, `k = 1` waits `d`,
`k = 2` waits `d + d`, `k = 3` waits `d + d + 2d`). -/
theorem retry_with_backoff_fails_k_then_succeeds {T E : Type}
    (operation : Nat → Except E T) (e : Nat → E) (v : T) (d N k : Nat)
    (hk : k ≤ N)
    (hfail : ∀ i, i < k → operation i = .error (e i))
    (hsucc : operation k = .ok v) :
    (retry_with_backoff operation d N).result = .ok v
      ∧ (retry_with_backoff operation d N).waits
          = (List.range k).map (fibDelay d)
      ∧ fibDelay d 0 = d ∧ fibDelay d 1 = d ∧ fibDelay d 2 = 2 * d
        ∧ fibDelay d 3 = 3 * d ∧ fibDelay d 4 = 5 * d := by
  have h := retryGo_spec operation e v 0 k N (d, d) hk
    (fun i hi => by simpa using hfail i hi) (by simpa using hsucc)
  rw [retry_with_backoff, h]
  have hw : waitSeq (d, d) k = (List.range k).map (fibDelay d) := by
    have := waitSeq_fibDelay d 0 k
    simpa [fibDelay] using this
  refine ⟨rfl, hw, rfl, rfl, ?_, ?_, ?_⟩ <;> simp [fibDelay] <;> ring

/-- Witness for C1 at `d = 5`, `N = 3`, `k = 2`: the operation fails twice
then returns `99`; the run returns `99` and waited `5` then `5`. -/
theorem retry_with_backoff_fails_k_then_succeeds_witness :
    (retry_with_backoff
        (fun i => if i < 2 then Except.error i else Except.ok 99) 5 3).result
        = Except.ok 99
      ∧ (retry_with_backoff
          (fun i => if i < 2 then Except.error i else Except.ok 99) 5 3).waits
          = [5, 5] := by
  have h := retry_with_backoff_fails_k_then_succeeds
    (fun i => if i < 2 then Except.error i else Except.ok 99)
    (fun i => i) 99 5 3 2 (by decide)
    (by decide) (by decide)
  exact ⟨h.1, h.2.1.trans (by decide)⟩

/-- C2: for every max retry count `N ≥ 0`, if the operation fails on every
attempt that is made (attempts `0 … N`), `retry_with_backoff` invokes the
operation exactly `N + 1` times and returns the error produced by the last
attempt (attempt index `N`). -/
theorem retry_with_backoff_all_fail {T E : Type}
    (operation : Nat → Except E T) (e : Nat → E) (d N : Nat)
    (hfail : ∀ i, i ≤ N → operation i = .error (e i)) :
    (retry_with_backoff operation d N).result = .error (e N)
      ∧ (retry_with_backoff operation d N).attempts = N + 1 := by
  have h := retryGo_all_fail operation e 0 N (d, d)
    (fun i hi => hfail i (by omega))
  rw [retry_with_backoff]
  simpa using h

/-- Witness for C2 at `d = 7`, `N = 4`: an always-failing operation is
invoked 5 times and the error of attempt 4 is returned. -/
theorem retry_with_backoff_all_fail_witness :
    (retry_with_backoff
        (fun i => (Except.error i : Except Nat Nat)) 7 4).result
        = Except.error 4
      ∧ (retry_with_backoff
          (fun i => (Except.error i : Except Nat Nat)) 7 4).attempts = 5 :=
  retry_with_backoff_all_fail (fun i => Except.error i) (fun i => i) 7 4
    (by decide)

/-! ## `src/dynamodb/schema.rs`, `table.rs`: data model -/

/-- `aws_sdk_dynamodb::types::AttributeValue`, restricted to the two variants
this repository constructs (`Item::set_string` / `set_number`); the `N`
payload is the decimal string DynamoDB stores. -/
inductive AttributeValue where
  | S (s : String)
  | N (n : String)
  deriving Repr, DecidableEq

/-- `FieldType` (src/dynamodb/schema.rs lines 50-56). -/
inductive FieldType where
  | String
  | Number
  deriving Repr, DecidableEq

/-- `Schema` (src/dynamodb/schema.rs): mapping from field name to declared
type, kept as the insertion list. -/
structure Schema where
  fields : List (String × FieldType)
  deriving Repr, DecidableEq

/-- `Table` (src/dynamodb/table.rs). -/
structure Table where
  name : String
  partition_key : String
  sort_key : Option String
  schema : Option Schema
  deriving Repr, DecidableEq

/-- `aws_sdk_dynamodb::types::ScalarAttributeType`. -/
inductive ScalarAttributeType where
  | S
  | N
  | B
  deriving Repr, DecidableEq

/-- `aws_sdk_dynamodb::types::KeyType`. -/
inductive KeyType where
  | Hash
  | Range
  deriving Repr, DecidableEq

/-- `aws_sdk_dynamodb::types::BillingMode`. -/
inductive BillingMode where
  | PayPerRequest
  | Provisioned
  deriving Repr, DecidableEq

/-- `aws_sdk_dynamodb::types::AttributeDefinition`. -/
structure AttributeDefinition where
  attribute_name : String
  attribute_type : ScalarAttributeType
  deriving Repr, DecidableEq

/-- `aws_sdk_dynamodb::types::KeySchemaElement`. -/
structure KeySchemaElement where
  attribute_name : String
  key_type : KeyType
  deriving Repr, DecidableEq

/-! ## `src/dynamodb/client.rs`: create_table_if_not_exists -/

/-- The CreateTable request `create_table_if_not_exists` assembles
(src/dynamodb/client.rs lines 149-156). -/
structure CreateTableRequest where
  table_name : String
  billing_mode : BillingMode
  attribute_definitions : List AttributeDefinition
  key_schema : List KeySchemaElement
  deriving Repr, DecidableEq

/-- Request construction of `create_table_if_not_exists`
(src/dynamodb/client.rs lines 124-156): partition key as `S`/`Hash`, then,
if a sort key is present, the sort key as `S`/`Range`, with pay-per-request
billing. -/
def buildCreateTableRequest (table : Table) : CreateTableRequest :=
  let attribute_definitions := [⟨table.partition_key, ScalarAttributeType.S⟩]
  let key_schema := [⟨table.partition_key, KeyType.Hash⟩]
  let attribute_definitions :=
    match table.sort_key with
    | some sort_key =>
        attribute_definitions ++ [⟨sort_key, ScalarAttributeType.S⟩]
    | none => attribute_definitions
  let key_schema :=
    match table.sort_key with
    | some sort_key => key_schema ++ [⟨sort_key, KeyType.Range⟩]
    | none => key_schema
  { table_name := table.name
    billing_mode := BillingMode.PayPerRequest
    attribute_definitions := attribute_definitions
    key_schema := key_schema }

/-- Observable service state: the tables that exist, each with the metadata
of the CreateTable request that made it.  `list_tables` returns the names. -/
structure DynamoState where
  tables : List (String × CreateTableRequest)
  deriving Repr, DecidableEq

/-- `table_exists` (src/dynamodb/client.rs lines 173-176): `list_tables`, then
membership of the name. -/
def table_exists (st : DynamoState) (table_name : String) : Bool :=
  (st.tables.map Prod.fst).contains table_name

/-- `create_table_if_not_exists` (src/dynamodb/client.rs lines 115-159) as a
state transition.  Returns the new state, `none` when the table already
existed (the Rust `Ok(None)` "already exists" outcome) or `some output` when
it was created, and the list of CreateTable requests issued during the call
(transport failures are outside the model, so the `Result` is always `Ok`). -/
def create_table_if_not_exists (st : DynamoState) (table : Table) :
    DynamoState × Option CreateTableRequest × List CreateTableRequest :=
  if table_exists st table.name then
    (st, none, [])
  else
    let request := buildCreateTableRequest table
    (⟨st.tables ++ [(table.name, request)]⟩, some request, [request])

theorem table_exists_after_create (st : DynamoState) (table : Table) :
    table_exists (create_table_if_not_exists st table).1 table.name = true := by
  unfold create_table_if_not_exists
  by_cases h : table_exists st table.name
  · simp [h]
  · simp [table_exists] at h ⊢
    simp [h]

/-- C5: `create_table_if_not_exists` is idempotent.  For every service state
and table descriptor, after a first call, the second of two consecutive calls
returns the non-error "already exists" outcome (`none`), issues no
table-creation request, and leaves the observable table metadata exactly as
the first call left it. -/
theorem create_table_if_not_exists_idempotent (st : DynamoState)
    (table : Table) :
    (create_table_if_not_exists (create_table_if_not_exists st table).1 table).2.1
        = none
      ∧ (create_table_if_not_exists
          (create_table_if_not_exists st table).1 table).2.2 = []
      ∧ (create_table_if_not_exists
          (create_table_if_not_exists st table).1 table).1
        = (create_table_if_not_exists st table).1 := by
  have h := table_exists_after_create st table
  rw [create_table_if_not_exists]
  simp [h]

/-- C10: the CreateTable request built by `create_table_if_not_exists`
declares the partition key and, when present, the sort key with scalar
attribute type `S` (String) and uses pay-per-request billing; the attached
`Schema` (and its declared field types) is never consulted, so any two
schemas produce the same request. -/
theorem buildCreateTableRequest_string_keys_ignores_schema (table : Table) :
    buildCreateTableRequest table =
      { table_name := table.name
        billing_mode := BillingMode.PayPerRequest
        attribute_definitions :=
          ⟨table.partition_key, ScalarAttributeType.S⟩ ::
            (match table.sort_key with
             | some sort_key => [⟨sort_key, ScalarAttributeType.S⟩]
             | none => [])
        key_schema :=
          ⟨table.partition_key, KeyType.Hash⟩ ::
            (match table.sort_key with
             | some sort_key => [⟨sort_key, KeyType.Range⟩]
             | none => []) }
      ∧ ∀ s s' : Option Schema,
          buildCreateTableRequest { table with schema := s }
            = buildCreateTableRequest { table with schema := s' } := by
  constructor
  · cases h : table.sort_key <;> simp [buildCreateTableRequest, h]
  · intro s s'
    cases h : table.sort_key <;> simp [buildCreateTableRequest, h]

/-! ## `src/dynamodb/client.rs`: query and scan request construction -/

/-- `HashMap::insert`: later insertion under the same key overwrites; the map
is viewed extensionally as its lookup function. -/
def mapInsert {V : Type} (m : String → Option V) (key : String) (value : V) :
    String → Option V :=
  fun k => if k = key then some value else m k

/-- The empty map (`HashMap::new` / `Default::default`). -/
def mapEmpty {V : Type} : String → Option V := fun _ => none

/-- `QueryFlexibleParams` (src/dynamodb/client.rs lines 562-572), with the
value type abstract. -/
structure QueryFlexibleParams (V : Type) where
  table_name : String
  key_condition_expression : String
  expression_attribute_names : Option (String → Option String)
  expression_attribute_values : Option (String → Option V)
  filter_expression : Option String
  projection_expression : Option String
  limit : Option Int
  scan_index_forward : Option Bool
  index_name : Option String

/-- The Query request the SDK fluent builder accumulates; every optional
field starts unset (`none`). -/
structure QueryRequest (V : Type) where
  table_name : String
  key_condition_expression : String
  expression_attribute_names : Option (String → Option String)
  expression_attribute_values : Option (String → Option V)
  filter_expression : Option String
  projection_expression : Option String
  limit : Option Int
  scan_index_forward : Option Bool
  index_name : Option String

/-- Request assembly of `query_flexible` (src/dynamodb/client.rs lines
393-421): table name, key condition and both attribute maps are set
unconditionally; filter, projection, limit, scan direction and index name are
set on the builder only when the parameter is `Some`. -/
def query_flexible_request {V : Type} (params : QueryFlexibleParams V) :
    QueryRequest V :=
  let query : QueryRequest V :=
    { table_name := params.table_name
      key_condition_expression := params.key_condition_expression
      expression_attribute_names := params.expression_attribute_names
      expression_attribute_values := params.expression_attribute_values
      filter_expression := none
      projection_expression := none
      limit := none
      scan_index_forward := none
      index_name := none }
  let query :=
    match params.filter_expression with
    | some filter => { query with filter_expression := some filter }
    | none => query
  let query :=
    match params.projection_expression with
    | some projection => { query with projection_expression := some projection }
    | none => query
  let query :=
    match params.limit with
    | some limit_val => { query with limit := some limit_val }
    | none => query
  let query :=
    match params.scan_index_forward with
    | some forward => { query with scan_index_forward := some forward }
    | none => query
  match params.index_name with
  | some index => { query with index_name := some index }
  | none => query

/-- `query_flexible` (src/dynamodb/client.rs lines 393-430): assembles the
request, sends it once, and returns the service's verbatim result together
with the list of requests issued during the call. -/
def query_flexible {V I E : Type}
    (send : QueryRequest V → Except E (List I))
    (params : QueryFlexibleParams V) :
    Except E (List I) × List (QueryRequest V) :=
  let request := query_flexible_request params
  (send request, [request])

/-- Parameter assembly of `query_simple` (src/dynamodb/client.rs lines
469-491): `"#pk = :pkval"` with `#pk`/`:pkval` bound; when a sort-key
condition `(sort_key, condition, value)` is supplied the literal condition
string is appended as `" AND #sk {condition} :skval"` and `#sk`/`:skval` are
bound.  The caller-supplied `expression_attribute_values` map (defaulted when
absent) receives the `:pkval`/`:skval` insertions, overwriting any entries
already there. -/
def query_simple_params {V : Type} (table_name : String)
    (partition_key : String × V)
    (sort_key_condition : Option (String × String × V))
    (filter_expression : Option String) (limit : Option Int)
    (expression_attribute_values : Option (String → Option V)) :
    QueryFlexibleParams V :=
  let key_condition_expression := "#pk = :pkval"
  let expression_attribute_names :=
    mapInsert mapEmpty "#pk" partition_key.1
  let expression_attribute_values :=
    expression_attribute_values.getD mapEmpty
  let expression_attribute_values :=
    mapInsert expression_attribute_values ":pkval" partition_key.2
  match sort_key_condition with
  | some (sort_key, condition, value) =>
    { table_name := table_name
      key_condition_expression :=
        key_condition_expression ++ (" AND #sk " ++ condition ++ " :skval")
      expression_attribute_names :=
        some (mapInsert expression_attribute_names "#sk" sort_key)
      expression_attribute_values :=
        some (mapInsert expression_attribute_values ":skval" value)
      filter_expression := filter_expression
      projection_expression := none
      limit := limit
      scan_index_forward := none
      index_name := none }
  | none =>
    { table_name := table_name
      key_condition_expression := key_condition_expression
      expression_attribute_names := some expression_attribute_names
      expression_attribute_values := some expression_attribute_values
      filter_expression := filter_expression
      projection_expression := none
      limit := limit
      scan_index_forward := none
      index_name := none }

/-- `query_simple` (src/dynamodb/client.rs lines 460-493): builds the
parameters and delegates to `query_flexible`. -/
def query_simple {V I E : Type}
    (send : QueryRequest V → Except E (List I)) (table_name : String)
    (partition_key : String × V)
    (sort_key_condition : Option (String × String × V))
    (filter_expression : Option String) (limit : Option Int)
    (expression_attribute_values : Option (String → Option V)) :
    Except E (List I) × List (QueryRequest V) :=
  query_flexible send
    (query_simple_params table_name partition_key sort_key_condition
      filter_expression limit expression_attribute_values)

/-! ## `src/dynamodb/client.rs`: scan loops and paginated scan -/

/-- A Scan response: the SDK's `items` is optional, and `last_evaluated_key`
is the opaque pagination cursor (`none` when the result set is exhausted).
`K` is the opaque cursor type, `I` the item type. -/
structure ScanResponse (K I : Type) where
  items : Option (List I)
  last_evaluated_key : Option K
  deriving Repr, DecidableEq

/-- Loop body of `scan_table` (src/dynamodb/client.rs lines 268-296): issue a
scan with the current cursor as exclusive start key (unset on the first
iteration), extend the accumulated items with the page's items, then stop if
the returned `last_evaluated_key` is `none` and otherwise loop, passing the
returned key verbatim.  `fuel` bounds the number of iterations modelled;
`none` means the loop was still running when the fuel ran out. -/
def scanTableGo {K I : Type} (svc : Option K → ScanResponse K I)
    (last_evaluated_key : Option K) : Nat → Option (List I)
  | 0 => none
  | fuel + 1 =>
    let response := svc last_evaluated_key
    let new_items :=
      match response.items with
      | some new_items => new_items
      | none => []
    match response.last_evaluated_key with
    | none => some new_items
    | some key =>
      (scanTableGo svc (some key) fuel).map (fun rest => new_items ++ rest)

/-- `scan_table` (src/dynamodb/client.rs lines 268-296): starts with no
exclusive start key. -/
def scan_table {K I : Type} (svc : Option K → ScanResponse K I) (fuel : Nat) :
    Option (List I) :=
  scanTableGo svc none fuel

/-- The Scan request assembled on each iteration of `scan`
(src/dynamodb/client.rs lines 310-326): table name plus the same optional
filter and attribute maps every time, with the current cursor as exclusive
start key. -/
structure ScanRequest (K V : Type) where
  table_name : String
  filter_expression : Option String
  expression_attribute_names : Option (String → Option String)
  expression_attribute_values : Option (String → Option V)
  exclusive_start_key : Option K

/-- `scan` (src/dynamodb/client.rs lines 299-346): same loop as `scan_table`,
but each page request carries the caller's filter expression and attribute
maps unchanged, and the returned attribute maps are wrapped into `Item`
(the wrapping is identity on the modelled item payload). -/
def scanGo {K V I : Type} (svc : ScanRequest K V → ScanResponse K I)
    (table_name : String) (filter_expression : Option String)
    (expression_attribute_names : Option (String → Option String))
    (expression_attribute_values : Option (String → Option V))
    (last_evaluated_key : Option K) : Nat → Option (List I)
  | 0 => none
  | fuel + 1 =>
    let response := svc
      { table_name := table_name
        filter_expression := filter_expression
        expression_attribute_names := expression_attribute_names
        expression_attribute_values := expression_attribute_values
        exclusive_start_key := last_evaluated_key }
    let new_items :=
      match response.items with
      | some new_items => new_items
      | none => []
    match response.last_evaluated_key with
    | none => some new_items
    | some key =>
      (scanGo svc table_name filter_expression expression_attribute_names
          expression_attribute_values (some key) fuel).map
        (fun rest => new_items ++ rest)

/-- `scan` (src/dynamodb/client.rs lines 299-346): the loop starts with no
exclusive start key. -/
def scan {K V I : Type} (svc : ScanRequest K V → ScanResponse K I)
    (table_name : String) (filter_expression : Option String)
    (expression_attribute_names : Option (String → Option String))
    (expression_attribute_values : Option (String → Option V)) (fuel : Nat) :
    Option (List I) :=
  scanGo svc table_name filter_expression expression_attribute_names
    expression_attribute_values none fuel

/-- The Scan request `scan_paginated` assembles (src/dynamodb/client.rs lines
538-547): every optional parameter is forwarded verbatim via the `set_*`
builder methods. -/
structure ScanPageRequest (K V : Type) where
  table_name : String
  filter_expression : Option String
  projection_expression : Option String
  expression_attribute_names : Option (String → Option String)
  expression_attribute_values : Option (String → Option V)
  limit : Option Int
  exclusive_start_key : Option K

/-- Request assembly of `scan_paginated` (src/dynamodb/client.rs lines
528-547). -/
def scan_paginated_request {K V : Type} (table_name : String)
    (filter_expression : Option String)
    (projection_expression : Option String)
    (expression_attribute_names : Option (String → Option String))
    (expression_attribute_values : Option (String → Option V))
    (limit : Option Int) (exclusive_start_key : Option K) :
    ScanPageRequest K V :=
  { table_name := table_name
    filter_expression := filter_expression
    projection_expression := projection_expression
    expression_attribute_names := expression_attribute_names
    expression_attribute_values := expression_attribute_values
    limit := limit
    exclusive_start_key := exclusive_start_key }

/-- `scan_paginated` (src/dynamodb/client.rs lines 528-559): issues exactly
one page request and returns the page's items together with the returned
cursor. -/
def scan_paginated {K V I : Type}
    (svc : ScanPageRequest K V → ScanResponse K I) (table_name : String)
    (filter_expression : Option String)
    (projection_expression : Option String)
    (expression_attribute_names : Option (String → Option String))
    (expression_attribute_values : Option (String → Option V))
    (limit : Option Int) (exclusive_start_key : Option K) :
    (List I × Option K) × List (ScanPageRequest K V) :=
  let request := scan_paginated_request table_name filter_expression
    projection_expression expression_attribute_names
    expression_attribute_values limit exclusive_start_key
  let response := svc request
  let items :=
    match response.items with
    | some items => items
    | none => []
  ((items, response.last_evaluated_key), [request])

/-! ## `src/command_line.rs`: key condition built by the `query` command -/

/-- Key-condition assembly of the interactive `query` command
(`query_items`, src/command_line.rs lines 228-259): partition-key equality,
then an optional sort-key condition whose operator string is interpolated
verbatim; when that operator is exactly `"BETWEEN"` a second value prompt
appends `" AND :skval2"` and binds the extra placeholder.
`sort_key_input = some (sort_key, condition, value, value2)` carries the
prompted strings (`value2` is consulted only in the `BETWEEN` branch, as the
prompt only happens there). -/
def cli_query_key_condition
    (partition_key_name : String) (partition_key_value : String)
    (sort_key_input : Option (String × String × String × String)) :
    String × (String → Option String) × (String → Option AttributeValue) :=
  let key_condition_expression := "#pk = :pkval"
  let expression_attribute_names :=
    mapInsert mapEmpty "#pk" partition_key_name
  let expression_attribute_values :=
    mapInsert mapEmpty ":pkval" (AttributeValue.S partition_key_value)
  match sort_key_input with
  | none =>
    (key_condition_expression, expression_attribute_names,
      expression_attribute_values)
  | some (sort_key, sort_key_condition, sort_key_value, sort_key_value_2) =>
    let key_condition_expression :=
      key_condition_expression ++ (" AND #sk " ++ sort_key_condition ++ " :skval")
    let expression_attribute_names :=
      mapInsert expression_attribute_names "#sk" sort_key
    let expression_attribute_values :=
      mapInsert expression_attribute_values ":skval"
        (AttributeValue.S sort_key_value)
    if sort_key_condition = "BETWEEN" then
      (key_condition_expression ++ " AND :skval2",
        expression_attribute_names,
        mapInsert expression_attribute_values ":skval2"
          (AttributeValue.S sort_key_value_2))
    else
      (key_condition_expression, expression_attribute_names,
        expression_attribute_values)

/-! ## `src/dynamodb/client.rs`: update_item -/

/-- The UpdateItem request `update_item` assembles (src/dynamodb/client.rs
lines 238-246).  The two expression maps are kept as their insertion
sequences; all inserted placeholder keys (`#attr0, #attr1, …` and
`:val0, :val1, …`) are pairwise distinct, so the association list has the
same lookup behaviour as the Rust `HashMap`. -/
structure UpdateRequest where
  table_name : String
  key : List (String × AttributeValue)
  update_expression : String
  expression_attribute_names : List (String × String)
  expression_attribute_values : List (String × AttributeValue)
  deriving Repr, DecidableEq

/-- The `for (i, (attr_name, attr_value)) in updates.iter().enumerate()` loop
of `update_item` (src/dynamodb/client.rs lines 225-236): builds the comma
separated `#attr{i} = :val{i}` clauses and records the placeholder bindings
in insertion order. -/
def updateLoop (update_expression : String)
    (expression_attribute_names : List (String × String))
    (expression_attribute_values : List (String × AttributeValue))
    (i : Nat) :
    List (String × AttributeValue) →
      String × List (String × String) × List (String × AttributeValue)
  | [] =>
    (update_expression, expression_attribute_names,
      expression_attribute_values)
  | (attr_name, attr_value) :: rest =>
    let placeholder := "#attr" ++ toString i
    let value_placeholder := ":val" ++ toString i
    let update_expression :=
      if i > 0 then update_expression ++ ", " else update_expression
    let update_expression :=
      update_expression ++ (placeholder ++ " = " ++ value_placeholder)
    updateLoop update_expression
      (expression_attribute_names ++ [(placeholder, attr_name)])
      (expression_attribute_values ++ [(value_placeholder, attr_value)])
      (i + 1) rest

/-- `update_item` (src/dynamodb/client.rs lines 220-250): the update
expression is `"SET "` followed by the accumulated clauses; the key and the
two maps are sent alongside.  `updates` is the changed-attribute map in its
iteration order. -/
def update_item (table_name : String)
    (key updates : List (String × AttributeValue)) : UpdateRequest :=
  let parts := updateLoop "" [] [] 0 updates
  { table_name := table_name
    key := key
    update_expression := "SET " ++ parts.1
    expression_attribute_names := parts.2.1
    expression_attribute_values := parts.2.2 }

/-- The `#attrI = :valI` clause for index `i`. -/
def updClause (i : Nat) : String :=
  "#attr" ++ toString i ++ " = " ++ (":val" ++ toString i)

/-- Concatenation of a list of strings. -/
def joinAll : List String → String
  | [] => ""
  | x :: xs => x ++ joinAll xs

/-- Separator-interleaved concatenation (`"a, b, c"` for separator `", "`). -/
def sepJoin (sep : String) : List String → String
  | [] => ""
  | [x] => x
  | x :: xs => x ++ sep ++ sepJoin sep xs

theorem sepJoin_cons_joinAll (sep x : String) (xs : List String) :
    sepJoin sep (x :: xs) = x ++ joinAll (xs.map (fun y => sep ++ y)) := by
  induction xs generalizing x with
  | nil => simp [sepJoin, joinAll]
  | cons y ys ih =>
    rw [List.map_cons, joinAll, show sepJoin sep (x :: y :: ys)
      = x ++ sep ++ sepJoin sep (y :: ys) from rfl, ih y]
    simp [String.append_assoc]

theorem updateLoop_spec (l : List (String × AttributeValue)) (i : Nat)
    (hi : 1 ≤ i) (e : String) (ns : List (String × String))
    (vs : List (String × AttributeValue)) :
    updateLoop e ns vs i l =
      (e ++ joinAll ((l.enumFrom i).map (fun ju => ", " ++ updClause ju.1)),
        ns ++ (l.enumFrom i).map
          (fun ju => ("#attr" ++ toString ju.1, ju.2.1)),
        vs ++ (l.enumFrom i).map
          (fun ju => (":val" ++ toString ju.1, ju.2.2))) := by
  induction l generalizing i e ns vs with
  | nil => simp [updateLoop, List.enumFrom, joinAll]
  | cons u rest ih =>
    obtain ⟨attr_name, attr_value⟩ := u
    simp only [updateLoop]
    rw [if_pos (by omega : i > 0), ih (i + 1) (by omega)]
    simp only [Prod.mk.injEq]
    refine ⟨?_, ?_, ?_⟩
    · simp [List.enumFrom, joinAll, updClause, String.append_assoc]
    · simp [List.enumFrom]
    · simp [List.enumFrom]

/-- C8: for every key and every non-empty changed-attribute map,
`update_item` synthesizes the update expression
`"SET #attr0 = :val0, #attr1 = :val1, …"` — exactly one `#attrI = :valI`
clause per supplied attribute — while the names map binds each `#attrI` to
that attribute's real name and the values map binds each `:valI` to that
attribute's new value; the key is sent unchanged. -/
theorem update_item_synthesizes_set_expression (table_name : String)
    (key updates : List (String × AttributeValue)) (h : updates ≠ []) :
    (update_item table_name key updates).update_expression
        = "SET " ++ sepJoin ", " (updates.enum.map (fun ju => updClause ju.1))
      ∧ (update_item table_name key updates).expression_attribute_names
        = updates.enum.map (fun ju => ("#attr" ++ toString ju.1, ju.2.1))
      ∧ (update_item table_name key updates).expression_attribute_values
        = updates.enum.map (fun ju => (":val" ++ toString ju.1, ju.2.2))
      ∧ (update_item table_name key updates).key = key := by
  match updates, h with
  | (attr_name, attr_value) :: rest, _ =>
    have hstep :
        updateLoop "" [] [] 0 ((attr_name, attr_value) :: rest)
          = updateLoop ("" ++ ("#attr" ++ toString 0 ++ " = "
              ++ (":val" ++ toString 0)))
            [("#attr" ++ toString 0, attr_name)]
            [(":val" ++ toString 0, attr_value)] 1 rest := by
      simp only [updateLoop]
      rw [if_neg (by omega : ¬ 0 > 0)]
      simp
    unfold update_item
    rw [hstep, updateLoop_spec rest 1 (by omega)]
    refine ⟨?_, ?_, ?_, rfl⟩
    · show _ = "SET " ++ sepJoin ", "
        ((((0 : Nat), (attr_name, attr_value)) :: rest.enumFrom 1).map
          (fun ju => updClause ju.1))
      rw [List.map_cons, sepJoin_cons_joinAll, List.map_map]
      simp [updClause, String.append_assoc, Function.comp_def]
    · show _ = (((0 : Nat), (attr_name, attr_value)) :: rest.enumFrom 1).map
        (fun ju => ("#attr" ++ toString ju.1, ju.2.1))
      simp
    · show _ = (((0 : Nat), (attr_name, attr_value)) :: rest.enumFrom 1).map
        (fun ju => (":val" ++ toString ju.1, ju.2.2))
      simp

/-- Witness for C8: two changed attributes produce
`"SET #attr0 = :val0, #attr1 = :val1"` with the matching bindings. -/
theorem update_item_synthesizes_set_expression_witness :
    (update_item "testing-products"
        [("category", AttributeValue.S "Electronics")]
        [("price", AttributeValue.N "649.99"),
          ("stock", AttributeValue.N "3")]).update_expression
        = "SET #attr0 = :val0, #attr1 = :val1"
      ∧ (update_item "testing-products"
          [("category", AttributeValue.S "Electronics")]
          [("price", AttributeValue.N "649.99"),
            ("stock", AttributeValue.N "3")]).expression_attribute_names
        = [("#attr0", "price"), ("#attr1", "stock")]
      ∧ (update_item "testing-products"
          [("category", AttributeValue.S "Electronics")]
          [("price", AttributeValue.N "649.99"),
            ("stock", AttributeValue.N "3")]).expression_attribute_values
        = [(":val0", AttributeValue.N "649.99"),
            (":val1", AttributeValue.N "3")] := by
  have h := update_item_synthesizes_set_expression "testing-products"
    [("category", AttributeValue.S "Electronics")]
    [("price", AttributeValue.N "649.99"), ("stock", AttributeValue.N "3")]
    (by decide)
  exact ⟨h.1.trans (by decide), h.2.1.trans (by decide),
    h.2.2.1.trans (by decide)⟩

/-! ## Pagination chains (C6) -/

/-- `cursorChain next cursor keys` says that, starting from `cursor`, the
service's successive `last_evaluated_key` values are exactly `keys`, after
which the cursor is absent: the page at `cursor` returns the first element of
`keys` as its cursor, and so on, the page reached through the last key
returning no cursor. -/
def cursorChain {K : Type} (next : Option K → Option K) :
    Option K → List K → Prop
  | cursor, [] => next cursor = none
  | cursor, key :: keys => next cursor = some key ∧ cursorChain next (some key) keys

/-- The pages visited along a cursor chain, in request order. -/
def chainPages {K I : Type} (pageOf : Option K → List I) :
    Option K → List K → List (List I)
  | cursor, [] => [pageOf cursor]
  | cursor, key :: keys => pageOf cursor :: chainPages pageOf (some key) keys

theorem scanTableGo_joins {K I : Type} (svc : Option K → ScanResponse K I)
    (keys : List K) (cursor : Option K) (fuel : Nat)
    (hchain : cursorChain (fun c => (svc c).last_evaluated_key) cursor keys)
    (hfuel : keys.length < fuel) :
    scanTableGo svc cursor fuel
      = some (chainPages (fun c => ((svc c).items).getD []) cursor keys).flatten := by
  induction keys generalizing cursor fuel with
  | nil =>
    cases fuel with
    | zero => omega
    | succ fuel =>
      have hnone : (svc cursor).last_evaluated_key = none := hchain
      rw [scanTableGo]
      rw [show (match (svc cursor).items with
            | some new_items => new_items
            | none => []) = ((svc cursor).items).getD [] by
          cases (svc cursor).items <;> rfl]
      rw [hnone]
      simp [chainPages]
  | cons key keys ih =>
    cases fuel with
    | zero => omega
    | succ fuel =>
      obtain ⟨hstep0, hrest⟩ := hchain
      have hstep : (svc cursor).last_evaluated_key = some key := hstep0
      rw [scanTableGo]
      rw [show (match (svc cursor).items with
            | some new_items => new_items
            | none => []) = ((svc cursor).items).getD [] by
          cases (svc cursor).items <;> rfl]
      rw [hstep]
      dsimp only
      have hfl : keys.length < fuel := by simp at hfuel; omega
      rw [ih (some key) fuel hrest hfl]
      simp [chainPages]

theorem scanGo_eq_scanTableGo {K V I : Type}
    (svc : ScanRequest K V → ScanResponse K I) (table_name : String)
    (filter_expression : Option String)
    (ns : Option (String → Option String))
    (vs : Option (String → Option V)) (fuel : Nat) (cursor : Option K) :
    scanGo svc table_name filter_expression ns vs cursor fuel
      = scanTableGo
          (fun c => svc
            { table_name := table_name
              filter_expression := filter_expression
              expression_attribute_names := ns
              expression_attribute_values := vs
              exclusive_start_key := c })
          cursor fuel := by
  induction fuel generalizing cursor with
  | zero => rfl
  | succ fuel ih =>
    rw [scanGo, scanTableGo]
    generalize (svc { table_name := table_name, filter_expression := filter_expression, expression_attribute_names := ns, expression_attribute_values := vs, exclusive_start_key := cursor }).last_evaluated_key = lek
    cases lek with
    | none => rfl
    | some key =>
      dsimp only
      rw [ih (some key)]

/-- C6: the full-enumeration scans (`scan_table` and `scan`) loop page
requests, feeding each page's returned `last_evaluated_key` verbatim as the
next request's exclusive start key, accumulate every page's items in order,
stop exactly when a page returns no cursor, and return the concatenation of
all pages.  The hypothesis `cursorChain … keys` names the cursors the service
hands back (an absent cursor meaning no more pages); with enough fuel the
loop returns the join of exactly the pages along that chain. -/
theorem scan_loops_concatenate_pages {K V I : Type}
    (svc1 : Option K → ScanResponse K I)
    (svc2 : ScanRequest K V → ScanResponse K I)
    (table_name : String) (filter_expression : Option String)
    (ns : Option (String → Option String))
    (vs : Option (String → Option V))
    (keys1 keys2 : List K) (fuel1 fuel2 : Nat)
    (h1 : cursorChain (fun c => (svc1 c).last_evaluated_key) none keys1)
    (hf1 : keys1.length < fuel1)
    (h2 : cursorChain
      (fun c => (svc2
        { table_name := table_name
          filter_expression := filter_expression
          expression_attribute_names := ns
          expression_attribute_values := vs
          exclusive_start_key := c }).last_evaluated_key) none keys2)
    (hf2 : keys2.length < fuel2) :
    scan_table svc1 fuel1
        = some (chainPages (fun c => ((svc1 c).items).getD []) none keys1).flatten
      ∧ scan svc2 table_name filter_expression ns vs fuel2
        = some (chainPages
            (fun c => ((svc2
              { table_name := table_name
                filter_expression := filter_expression
                expression_attribute_names := ns
                expression_attribute_values := vs
                exclusive_start_key := c }).items).getD []) none keys2).flatten := by
  constructor
  · exact scanTableGo_joins svc1 keys1 none fuel1 h1 hf1
  · rw [scan, scanGo_eq_scanTableGo]
    exact scanTableGo_joins _ keys2 none fuel2 h2 hf2

/-- A concrete three-page service for the C6 witness. -/
def svcPages : Option Nat → ScanResponse Nat Nat := fun cursor =>
  match cursor with
  | none => ⟨some [1, 2], some 10⟩
  | some 10 => ⟨some [3], some 20⟩
  | some 20 => ⟨some [4, 5], none⟩
  | some _ => ⟨some [], none⟩

/-- A concrete two-page filtered service for the C6 witness (second page has
no `items` field). -/
def svcReqPages : ScanRequest Nat Nat → ScanResponse Nat Nat := fun request =>
  match request.exclusive_start_key with
  | none => ⟨some [7], some 1⟩
  | some _ => ⟨none, none⟩

/-- Witness for C6: a three-page table is concatenated to `[1,2,3,4,5]`, and
a filtered two-page scan to `[7]`. -/
theorem scan_loops_concatenate_pages_witness :
    scan_table svcPages 4 = some [1, 2, 3, 4, 5]
      ∧ scan svcReqPages "t" (some "price > :min") none none 3 = some [7] := by
  have h := scan_loops_concatenate_pages svcPages svcReqPages "t"
    (some "price > :min") none none [10, 20] [1] 4 3
    ⟨rfl, rfl, rfl⟩ (by decide) ⟨rfl, rfl⟩ (by decide)
  exact ⟨h.1.trans (by decide), h.2.trans (by decide)⟩

/-! ## Operator handling of query_simple (C3, C4) and limits (C7) -/

/-- Number of (possibly overlapping) occurrences of `pat` in the character
list. -/
def countSubstrAux (pat : List Char) : List Char → Nat
  | [] => 0
  | c :: rest =>
    (if pat.isPrefixOf (c :: rest) then 1 else 0) + countSubstrAux pat rest

/-- Number of occurrences of the pattern `pat` in the string `s`. -/
def countSubstr (pat s : String) : Nat := countSubstrAux pat.data s.data

/-- A service oracle that accepts any query and returns no items, used to
observe what `query_simple` sends. -/
def sendOkEmpty : QueryRequest String → Except String (List Nat) :=
  fun _ => Except.ok []

/-- Counterexample to C3: calling `query_simple` with the unrecognized
operator `"~="` does not fail — it returns the service's success verbatim —
and it issues exactly one request, whose key condition interpolates `"~="`.
There is no "unsupported condition" validation in the code. -/
theorem query_simple_unsupported_op_counterexample :
    (query_simple sendOkEmpty "users" ("id", "123")
        (some ("ts", "~=", "5")) none none none).1 = Except.ok []
      ∧ ((query_simple sendOkEmpty "users" ("id", "123")
          (some ("ts", "~=", "5")) none none none).2).length = 1
      ∧ ((query_simple sendOkEmpty "users" ("id", "123")
          (some ("ts", "~=", "5")) none none none).2).map
            (fun request => request.key_condition_expression)
        = ["#pk = :pkval AND #sk ~= :skval"] :=
  ⟨rfl, rfl, by decide⟩

/-- C3 (amended): `query_simple` performs no validation of the sort-key
operator: any operator string, recognized or not, is interpolated verbatim
into the key-condition expression `"#pk = :pkval AND #sk {op} :skval"`,
exactly one request is issued to the service, and the service's result is
returned unchanged (any failure for a malformed operator comes from the
service, not locally). -/
theorem query_simple_interpolates_operator_verbatim {V I E : Type}
    (send : QueryRequest V → Except E (List I)) (table_name : String)
    (partition_key : String × V) (sort_key condition : String) (value : V)
    (filter_expression : Option String) (limit : Option Int)
    (eav : Option (String → Option V)) :
    (query_simple send table_name partition_key
        (some (sort_key, condition, value)) filter_expression limit eav).2
        = [query_flexible_request (query_simple_params table_name
            partition_key (some (sort_key, condition, value))
            filter_expression limit eav)]
      ∧ (query_simple send table_name partition_key
          (some (sort_key, condition, value)) filter_expression limit eav).1
        = send (query_flexible_request (query_simple_params table_name
            partition_key (some (sort_key, condition, value))
            filter_expression limit eav))
      ∧ (query_simple_params table_name partition_key
          (some (sort_key, condition, value)) filter_expression limit
          eav).key_condition_expression
        = "#pk = :pkval AND #sk " ++ condition ++ " :skval" := by
  refine ⟨rfl, rfl, ?_⟩
  show "#pk = :pkval" ++ (" AND #sk " ++ condition ++ " :skval") = _
  rw [← String.append_assoc, ← String.append_assoc]
  rfl

/-- Counterexample to C4: `query_simple` with the `BETWEEN` operator binds
only ONE sort-key value placeholder — the expression is
`"#pk = :pkval AND #sk BETWEEN :skval"` with a single `:skval` occurrence and
no `:skval2` bound — rather than synthesizing an extra placeholder. -/
theorem query_simple_between_counterexample :
    (query_simple_params (V := String) "products" ("category", "Books")
        (some ("price", "BETWEEN", "10")) none none
        none).key_condition_expression
        = "#pk = :pkval AND #sk BETWEEN :skval"
      ∧ ((query_simple_params (V := String) "products" ("category", "Books")
          (some ("price", "BETWEEN", "10")) none none
          none).expression_attribute_values.getD mapEmpty) ":skval"
        = some "10"
      ∧ ((query_simple_params (V := String) "products" ("category", "Books")
          (some ("price", "BETWEEN", "10")) none none
          none).expression_attribute_values.getD mapEmpty) ":skval2"
        = none
      ∧ countSubstr ":skval" "#pk = :pkval AND #sk BETWEEN :skval" = 1 :=
  ⟨by decide, rfl, rfl, by decide⟩

/-- C4 (amended): in `query_simple`, each of the operators `=`, `<`, `<=`,
`>`, `>=` produces a key-condition expression containing exactly one
comparison against the sort-key placeholder `#sk`; `BETWEEN` likewise
interpolates verbatim, producing `"#pk = :pkval AND #sk BETWEEN :skval"`
with a single sort-key placeholder and no extra one.  The two-placeholder
`BETWEEN` synthesis (appending `" AND :skval2"` and binding `:skval2`)
exists only in the interactive `query` command's builder
(`cli_query_key_condition`, from src/command_line.rs). -/
theorem query_simple_operator_coverage {V : Type} (table_name : String)
    (partition_key : String × V) (sort_key : String) (value : V)
    (filter_expression : Option String) (limit : Option Int)
    (eav : Option (String → Option V))
    (pk_name pk_value sk sv sv2 : String) :
    (query_simple_params table_name partition_key (some (sort_key, "=", value))
          filter_expression limit eav).key_condition_expression
        = "#pk = :pkval AND #sk = :skval"
      ∧ countSubstr "#sk" "#pk = :pkval AND #sk = :skval" = 1
      ∧ (query_simple_params table_name partition_key
          (some (sort_key, "<", value)) filter_expression limit
          eav).key_condition_expression
        = "#pk = :pkval AND #sk < :skval"
      ∧ countSubstr "#sk" "#pk = :pkval AND #sk < :skval" = 1
      ∧ (query_simple_params table_name partition_key
          (some (sort_key, "<=", value)) filter_expression limit
          eav).key_condition_expression
        = "#pk = :pkval AND #sk <= :skval"
      ∧ countSubstr "#sk" "#pk = :pkval AND #sk <= :skval" = 1
      ∧ (query_simple_params table_name partition_key
          (some (sort_key, ">", value)) filter_expression limit
          eav).key_condition_expression
        = "#pk = :pkval AND #sk > :skval"
      ∧ countSubstr "#sk" "#pk = :pkval AND #sk > :skval" = 1
      ∧ (query_simple_params table_name partition_key
          (some (sort_key, ">=", value)) filter_expression limit
          eav).key_condition_expression
        = "#pk = :pkval AND #sk >= :skval"
      ∧ countSubstr "#sk" "#pk = :pkval AND #sk >= :skval" = 1
      ∧ (query_simple_params table_name partition_key
          (some (sort_key, "BETWEEN", value)) filter_expression limit
          eav).key_condition_expression
        = "#pk = :pkval AND #sk BETWEEN :skval"
      ∧ (cli_query_key_condition pk_name pk_value
          (some (sk, "BETWEEN", sv, sv2))).1
        = "#pk = :pkval AND #sk BETWEEN :skval AND :skval2"
      ∧ (cli_query_key_condition pk_name pk_value
          (some (sk, "BETWEEN", sv, sv2))).2.2 ":skval"
        = some (AttributeValue.S sv)
      ∧ (cli_query_key_condition pk_name pk_value
          (some (sk, "BETWEEN", sv, sv2))).2.2 ":skval2"
        = some (AttributeValue.S sv2) := by
  exact ⟨rfl, by decide, rfl, by decide, rfl, by decide, rfl, by decide,
    rfl, by decide, rfl, rfl, rfl, rfl⟩

/-- Counterexample to C7: a supplied limit of `0` (not greater than `0`) is
NOT treated as "no limit": both `query_flexible` and `scan_paginated` place
`some 0` in the page request's limit field rather than leaving it unset. -/
theorem limit_zero_counterexample :
    (query_flexible_request (V := String)
        { table_name := "products"
          key_condition_expression := "#pk = :pkval"
          expression_attribute_names := none
          expression_attribute_values := none
          filter_expression := none
          projection_expression := none
          limit := some 0
          scan_index_forward := none
          index_name := none }).limit = some 0
      ∧ (scan_paginated_request (K := Nat) (V := String) "products" none none
          none none (some 0) none).limit = some 0
      ∧ some (0 : Int) ≠ (none : Option Int) :=
  ⟨rfl, rfl, by decide⟩

/-- C7 (amended): the integer limit is forwarded to the page request verbatim
whenever one is supplied — the code never compares it against `0`, so a
non-positive limit is sent to the service rather than being treated as "no
limit"; only an absent (`none`) limit leaves the request's limit unset. -/
theorem limit_forwarded_verbatim {V K : Type} (params : QueryFlexibleParams V)
    (table_name : String)
    (filter_expression projection_expression : Option String)
    (ns : Option (String → Option String)) (vs : Option (String → Option V))
    (limit : Option Int) (exclusive_start_key : Option K) :
    (query_flexible_request params).limit = params.limit
      ∧ (scan_paginated_request table_name filter_expression
          projection_expression ns vs limit exclusive_start_key).limit
        = limit := by
  constructor
  · obtain ⟨tn, kce, pns, pvs, fe, pe, lim, sif, idx⟩ := params
    cases fe <;> cases pe <;> cases lim <;> cases sif <;> cases idx <;> rfl
  · rfl

/-! ## Value-map assembly of query_simple (C9) -/

/-- C9: in the parameters `query_simple` sends, the expression-attribute-value
map always binds `":pkval"` to the supplied partition-key value and, when a
sort-key condition is given, `":skval"` to the supplied sort-key value;
caller-supplied entries under those keys are silently overwritten, while every
other caller-supplied entry is passed through unchanged. -/
theorem query_simple_binds_pkval_skval {V : Type} (table_name : String)
    (partition_key : String × V) (sort_key condition : String) (value : V)
    (filter_expression : Option String) (limit : Option Int)
    (eav : String → Option V) (k : String)
    (hk1 : k ≠ ":pkval") (hk2 : k ≠ ":skval") :
    ((query_simple_params table_name partition_key
        (some (sort_key, condition, value)) filter_expression limit
        (some eav)).expression_attribute_values.getD mapEmpty) ":pkval"
        = some partition_key.2
      ∧ ((query_simple_params table_name partition_key
          (some (sort_key, condition, value)) filter_expression limit
          (some eav)).expression_attribute_values.getD mapEmpty) ":skval"
        = some value
      ∧ ((query_simple_params table_name partition_key
          (some (sort_key, condition, value)) filter_expression limit
          (some eav)).expression_attribute_values.getD mapEmpty) k
        = eav k
      ∧ ((query_simple_params table_name partition_key none filter_expression
          limit (some eav)).expression_attribute_values.getD mapEmpty) ":pkval"
        = some partition_key.2
      ∧ ∀ k2, k2 ≠ ":pkval" →
          ((query_simple_params table_name partition_key none
            filter_expression limit
            (some eav)).expression_attribute_values.getD mapEmpty) k2
          = eav k2 := by
  refine ⟨rfl, rfl, ?_, rfl, ?_⟩
  · simp [query_simple_params, mapInsert, mapEmpty, hk1, hk2]
  · intro k2 h2
    simp [query_simple_params, mapInsert, mapEmpty, h2]

/-- A caller-supplied values map for the C9 witness: it binds a filter
placeholder and tries to pre-bind `":pkval"`. -/
def eavSample : String → Option Nat := fun k =>
  if k = ":min_price" then some 200
  else if k = ":pkval" then some 999
  else none

/-- Witness for C9: the caller's `":pkval"` binding (`999`) is overwritten by
the partition-key value `1`, `":skval"` is bound to the sort-key value `2`,
and the caller's `":min_price"` entry survives unchanged. -/
theorem query_simple_binds_pkval_skval_witness :
    ((query_simple_params "testing-products" ("category", 1)
        (some ("product_name", ">", 2)) none none
        (some eavSample)).expression_attribute_values.getD mapEmpty) ":pkval"
        = some 1
      ∧ ((query_simple_params "testing-products" ("category", 1)
          (some ("product_name", ">", 2)) none none
          (some eavSample)).expression_attribute_values.getD mapEmpty) ":skval"
        = some 2
      ∧ ((query_simple_params "testing-products" ("category", 1)
          (some ("product_name", ">", 2)) none none
          (some eavSample)).expression_attribute_values.getD mapEmpty)
            ":min_price"
        = some 200 := by
  have h := query_simple_binds_pkval_skval "testing-products" ("category", 1)
    "product_name" ">" 2 none none eavSample ":min_price"
    (by decide) (by decide)
  exact ⟨h.1, h.2.1, (h.2.2.1).trans (by decide)⟩
